import Mathlib

/-!
Verification of the remote-node client subsystem of `src/pipewire/remote.c`.

The definitions below are a shallow embedding of the C source: each Lean
definition mirrors one C function or data structure and keeps its name.
Machine pointers are modelled as abstract `Nat` addresses / offsets, file
descriptors as `Int` (the source uses `-1` as a sentinel), and the dynamic
arrays (`pw_array`) as Lean lists.  Side effects that leave the subsystem
(calls into the local node, logging, the actual `mmap`/`munmap`/`close`
system calls) are recorded in explicit effect lists so that theorems can
speak about them.  `mmap` and `vasprintf` are modelled as always
succeeding, which is the path every claim under consideration exercises.
-/

namespace PwRemote

/-- `EINVAL` errno value (INVALID-ARG in the spec's taxonomy). -/
def EINVAL : Int := 22

/-- `ENOENT` errno value (NOT-FOUND in the spec's taxonomy). -/
def ENOENT : Int := 2

/-- `ENOTSUP` errno value (NOT-SUPPORTED in the spec's taxonomy). -/
def ENOTSUP : Int := 95

/-- `SPA_ID_INVALID` (`0xffffffff`). -/
def SPA_ID_INVALID : Nat := 4294967295

/-- The page size used by `pw_map_range_init` (`core->sc_pagesize`). -/
def pageSize : Nat := 4096

/-- Abstraction of `sizeof(struct spa_chunk)`; only its role as a fixed
stride in the rebuilt-descriptor layout matters to the claims. -/
def chunkSize : Nat := 16

/-- `struct pw_map_range` from the pipewire headers: a page-aligned window
`[offset, offset+size)` whose user data starts at `start` inside it. -/
structure MapRange where
  offset : Nat
  start : Nat
  size : Nat
  deriving Repr, DecidableEq

/-- `pw_map_range_init(map, offset, size, page_size)`: page-floor the
offset, remember the in-page start, page-ceil the size. -/
def pw_map_range_init (offset size page : Nat) : MapRange :=
  let off := page * (offset / page)
  let st := offset - off
  { offset := off, start := st, size := page * ((size + st + page - 1) / page) }

/-- `struct mem_id`: one entry of the memory-id table `data->mem_ids`.
`ptr = none` models an unmapped region (`mid->ptr == NULL`). -/
structure MemId where
  id : Nat
  fd : Int
  flags : Nat
  ref : Nat
  ptr : Option Nat
  deriving Repr, DecidableEq

/-- `find_mem(mem_ids, id)`: index of the first entry whose `id` field
matches, scanning in array order. -/
def find_mem : List MemId → Nat → Option Nat
  | [], _ => none
  | m :: rest, i =>
      if m.id = i then some 0 else (find_mem rest i).map (· + 1)

/-- `client_node_add_mem`: warn and ignore a duplicate id, otherwise
append a fresh entry with `ref = 0` and no mapping (`pw_array_add`). -/
def client_node_add_mem (tbl : List MemId) (mem_id : Nat) (memfd : Int)
    (flags : Nat) : List MemId :=
  match find_mem tbl mem_id with
  | some _ => tbl
  | none => tbl ++ [{ id := mem_id, fd := memfd, flags := flags, ref := 0, ptr := none }]

/-- `mem_unmap`: munmap if mapped and null the pointer (munmap failure is
only logged, so the model always nulls). -/
def mem_unmap (m : MemId) : MemId := { m with ptr := none }

/-- `clear_memid(data, mid)` acting on the entry at index `i` of the
table.  Mirrors the C exactly: nothing happens on an already-cleared
entry (`fd == -1`); otherwise the fd slot and id are invalidated first,
then the whole table (including the just-invalidated entry) is scanned
for another entry with the same fd; only when none is found is the
region unmapped and the fd closed.  The second component lists the fds
passed to `close`. -/
def clear_memid (tbl : List MemId) (i : Nat) : List MemId × List Int :=
  match tbl[i]? with
  | none => (tbl, [])
  | some mid =>
    if mid.fd = -1 then (tbl, [])
    else
      let fd := mid.fd
      let mid1 := { mid with fd := -1, id := SPA_ID_INVALID }
      let tbl1 := tbl.set i mid1
      if tbl1.any (fun m => decide (m.fd = fd)) then (tbl1, [])
      else (tbl1.set i (mem_unmap mid1), [fd])

/-- `mid->ref++` on the entry at index `i`. -/
def mem_ref_inc (tbl : List MemId) (i : Nat) : List MemId :=
  match tbl[i]? with
  | none => tbl
  | some m => tbl.set i { m with ref := m.ref + 1 }

/-- `--mid->ref` on the entry at index `i`. -/
def mem_ref_dec (tbl : List MemId) (i : Nat) : List MemId :=
  match tbl[i]? with
  | none => tbl
  | some m => tbl.set i { m with ref := m.ref - 1 }

/-- The kind of a `spa_data` element, discriminated in the source by
comparing `d->type` against `t->data.MemFd` / `DmaBuf` / `MemPtr`. -/
inductive DataKind where
  | memFd
  | dmaBuf
  | memPtr
  | otherKind (t : Nat)
  deriving Repr, DecidableEq

/-- A `struct spa_data` element.  Before the rebuild, `data` carries the
wire encoding (a memory-id cookie for `memFd`/`dmaBuf`, an offset into
the buffer mapping for `memPtr`); after the rebuild it holds the
resolved value (0 standing for the nulled pointer, or the absolute
offset into the mapping).  `chunk` is the offset of the relocated chunk
header inside the mapping. -/
structure SpaData where
  kind : DataKind
  data : Nat
  fd : Int
  chunk : Option Nat
  deriving Repr, DecidableEq

/-- A `struct spa_meta`: its size, and (after the rebuild) the offset of
its data inside the buffer mapping. -/
structure SpaMeta where
  size : Nat
  data : Option Nat
  deriving Repr, DecidableEq

/-- A `struct spa_buffer` template as carried by the control message. -/
structure SpaBuffer where
  id : Nat
  metas : List SpaMeta
  datas : List SpaData
  deriving Repr, DecidableEq

/-- A `struct pw_client_node_buffer` from the `port_use_buffers` event. -/
structure ClientNodeBuffer where
  mem_id : Nat
  offset : Nat
  size : Nat
  buffer : SpaBuffer
  deriving Repr, DecidableEq

/-- `struct buffer_id`: one entry of a port's `buffer_ids` array.  `mem`
lists, in pin order, the indices into the memory-id table whose `ref`
this entry incremented. -/
structure BufferId where
  id : Nat
  map : MapRange
  ptr : Option Nat
  mem : List Nat
  buf : Option SpaBuffer
  deriving Repr, DecidableEq

/-- `struct port`: the per-port buffer table and the `in_order` flag. -/
structure Port where
  buffer_ids : List BufferId
  in_order : Bool
  deriving Repr, DecidableEq

/-- `port_init`: empty buffer table, `in_order = true`. -/
def port_init : Port := { buffer_ids := [], in_order := true }

/-- One step of the unpin loop in `clear_buffers`:
`if (--bid->mem[i]->ref == 0) clear_memid(data, bid->mem[i]);`. -/
def unpin (st : List MemId × List Int) (j : Nat) : List MemId × List Int :=
  let tbl1 := mem_ref_dec st.1 j
  match tbl1[j]? with
  | none => (tbl1, st.2)
  | some m =>
    if m.ref = 0 then
      let r := clear_memid tbl1 j
      (r.1, st.2 ++ r.2)
    else (tbl1, st.2)

/-- `clear_buffers(data, port)`: for every buffer entry, munmap its
mapping, release every pinned region (clearing regions whose refcount
drops to zero), free the rebuilt descriptor, and finally reset the
array (`port->buffer_ids.size = 0`).  The local-node call
`pw_port_use_buffers(port->port, NULL, 0)` is outside the model.
Returns the new table, the emptied port, and the closed fds. -/
def clear_buffers (tbl : List MemId) (port : Port) :
    List MemId × Port × List Int :=
  let r := port.buffer_ids.foldl (fun st bid => bid.mem.foldl unpin st) (tbl, [])
  (r.1, { port with buffer_ids := [] }, r.2)

/-- The meta-relocation loop: `offset = bid->map.start;` then for each
meta `m->data = SPA_MEMBER(bid->ptr, offset, void); offset += m->size;`.
Returns the rebuilt metas and the final `offset`. -/
def rebuild_metas (mapStart : Nat) (metas : List SpaMeta) : List SpaMeta × Nat :=
  metas.foldl (fun acc m => (acc.1 ++ [{ m with data := some acc.2 }], acc.2 + m.size))
    ([], mapStart)

/-- Result of resolving the `spa_data` elements of one incoming buffer. -/
structure ResolveOut where
  tbl : List MemId
  pins : List Nat
  datas : List SpaData
  ok : Bool
  deriving Repr, DecidableEq

/-- The data-resolution loop of `client_node_port_use_buffers`, for the
elements starting at index `j`.  `memFd`/`dmaBuf`: the `data` field is
a memory-id cookie; an unknown cookie aborts with `ok = false`
(`res = -EINVAL; goto cleanup;`), leaving the pins made so far in
place, otherwise the region is pinned and the descriptor gets that
region's fd with a nulled `data`.  `memPtr`: `data` becomes
`map.start + offset` relative to the buffer mapping, `fd = -1`.  Other
kinds are only warned about. -/
def resolve_datas (tbl : List MemId) (pins : List Nat) (mapStart metaEnd j : Nat) :
    List SpaData → ResolveOut
  | [] => ⟨tbl, pins, [], true⟩
  | d :: rest =>
    let d1 := { d with chunk := some (metaEnd + chunkSize * j) }
    match d.kind with
    | DataKind.memFd | DataKind.dmaBuf =>
      match find_mem tbl d.data with
      | none => ⟨tbl, pins, [], false⟩
      | some bm =>
        let fdv := ((tbl[bm]?).map (·.fd)).getD (-1)
        let r := resolve_datas (mem_ref_inc tbl bm) (pins ++ [bm]) mapStart metaEnd
                   (j + 1) rest
        ⟨r.tbl, r.pins, { d1 with data := 0, fd := fdv } :: r.datas, r.ok⟩
    | DataKind.memPtr =>
      let r := resolve_datas tbl pins mapStart metaEnd (j + 1) rest
      ⟨r.tbl, r.pins, { d1 with data := mapStart + d.data, fd := -1 } :: r.datas, r.ok⟩
    | DataKind.otherKind _ =>
      let r := resolve_datas tbl pins mapStart metaEnd (j + 1) rest
      ⟨r.tbl, r.pins, d1 :: r.datas, r.ok⟩

/-- Result of processing one incoming buffer. -/
structure ProcessOut where
  tbl : List MemId
  port : Port
  ok : Bool
  deriving Repr, DecidableEq

/-- One iteration of the main loop of `client_node_port_use_buffers`:
look up the buffer's memory id (`-EINVAL` on failure), compute the map
range, mmap (modelled as always succeeding, `mlock` failure is only
logged), rebuild the flat descriptor, pin the buffer's own region
first (`mid->ref++; bid->mem[bid->n_mem++] = mid;`), record the
embedded id (an id differing from the position `len` is only warned
about — `in_order` is not touched), relocate metas and chunks, and
resolve the data elements.  On a data-resolution failure the partially
built entry stays appended, exactly as the C leaves the partially
initialised `buffer_id` in the array for `clear_buffers` to undo. -/
def process_buffer (tbl : List MemId) (port : Port) (cb : ClientNodeBuffer) :
    ProcessOut :=
  match find_mem tbl cb.mem_id with
  | none => ⟨tbl, port, false⟩
  | some mi =>
    let map := pw_map_range_init cb.offset cb.size pageSize
    let tbl1 := mem_ref_inc tbl mi
    let mr := rebuild_metas map.start cb.buffer.metas
    let r := resolve_datas tbl1 [mi] map.start mr.2 0 cb.buffer.datas
    let bid : BufferId :=
      { id := cb.buffer.id, map := map, ptr := some map.offset, mem := r.pins,
        buf := some { cb.buffer with metas := mr.1, datas := r.datas } }
    ⟨r.tbl, { port with buffer_ids := port.buffer_ids ++ [bid] }, r.ok⟩

/-- The `for (i = 0; i < n_buffers; i++)` loop: stop at the first
failing buffer. -/
def use_buffers_loop (tbl : List MemId) (port : Port) :
    List ClientNodeBuffer → ProcessOut
  | [] => ⟨tbl, port, true⟩
  | cb :: rest =>
    let r := process_buffer tbl port cb
    if r.ok then use_buffers_loop r.tbl r.port rest
    else r

/-- Final state of a `port_use_buffers` control event. -/
structure UseBuffersOut where
  tbl : List MemId
  port : Port
  closed : List Int
  done : Nat × Int
  deriving Repr, DecidableEq

/-- `client_node_port_use_buffers` after a successful `find_port`:
clear the previous buffers, run the loop, and on any mid-loop failure
roll back with `clear_buffers` before replying; the reply is always
`done(seq, res)`.  On full success `res` is the local node's
`pw_port_use_buffers` result, modelled as 0. -/
def client_node_port_use_buffers (tbl : List MemId) (port : Port) (seq : Nat)
    (buffers : List ClientNodeBuffer) : UseBuffersOut :=
  let c1 := clear_buffers tbl port
  let r := use_buffers_loop c1.1 c1.2.1 buffers
  if r.ok then
    ⟨r.tbl, r.port, c1.2.2, (seq, 0)⟩
  else
    let c2 := clear_buffers r.tbl r.port
    ⟨c2.1, c2.2.1, c1.2.2 ++ c2.2.2, (seq, -EINVAL)⟩

/-- The interest mask handed to `pw_loop_update_io` / `pw_loop_add_io`. -/
structure IoMask where
  io_in : Bool
  io_err : Bool
  io_hup : Bool
  deriving Repr, DecidableEq

/-- `SPA_IO_ERR | SPA_IO_HUP`. -/
def maskErrHup : IoMask := ⟨false, true, true⟩

/-- `SPA_IO_IN | SPA_IO_ERR | SPA_IO_HUP`. -/
def maskInErrHup : IoMask := ⟨true, true, true⟩

/-- The status field of a transport `SPA_IO_BUFFERS` slot; only the
values the model distinguishes. -/
inductive IoStatus where
  | statusOk
  | needBuffer
  deriving Repr, DecidableEq

/-- A ring message type appended by the client. -/
inductive RingMsg where
  | needInput
  | haveOutput
  deriving Repr, DecidableEq

/-- A `spa_command_node` type, discriminated in the source against
`type.command_node.Pause` / `Start` / `ClockUpdate`. -/
inductive NodeCmd where
  | pause
  | start
  | clockUpdate
  | otherCmd (t : Nat)
  deriving Repr, DecidableEq

/-- The state touched by `client_node_command`: the RT source interest
mask, the transport input and output IO slots, the ring messages
appended so far and the counters written to the write-fd. -/
structure CmdState where
  ioMask : IoMask
  inputs : List IoStatus
  outputs : List IoStatus
  messages : List RingMsg
  writes : List Nat
  deriving Repr, DecidableEq

/-- `node_need_input`: append one NEED_INPUT ring message and write the
counter 1 to the rt write-fd. -/
def node_need_input (st : CmdState) : CmdState :=
  { st with messages := st.messages ++ [RingMsg.needInput],
            writes := st.writes ++ [1] }

/-- Observable result of one `client_node_command` dispatch: the new
state, the commands forwarded to the local node via
`spa_node_send_command`, and the `done` replies. -/
structure CmdOut where
  state : CmdState
  forwarded : List NodeCmd
  dones : List (Nat × Int)
  deriving Repr, DecidableEq

/-- `client_node_command(seq, command)`.  `sendRes` is the local node's
`spa_node_send_command` result (outside the model; a negative value is
only warned about and still echoed in the `done` reply).  Pause:
interest {ERR,HUP}, forward, done.  Start: interest {IN,ERR,HUP},
forward, set every input IO slot status to NEED_BUFFER, one
`node_need_input`, done.  ClockUpdate: the body is compiled out
(`#if 0`), so nothing happens.  Anything else: warn and
`done(seq, -ENOTSUP)`. -/
def client_node_command (st : CmdState) (seq : Nat) (cmd : NodeCmd)
    (sendRes : Int) : CmdOut :=
  match cmd with
  | NodeCmd.pause =>
    ⟨{ st with ioMask := maskErrHup }, [cmd], [(seq, sendRes)]⟩
  | NodeCmd.start =>
    let st1 := { st with ioMask := maskInErrHup,
                         inputs := st.inputs.map (fun _ => IoStatus.needBuffer) }
    ⟨node_need_input st1, [cmd], [(seq, sendRes)]⟩
  | NodeCmd.clockUpdate => ⟨st, [], []⟩
  | NodeCmd.otherCmd _ => ⟨st, [], [(seq, -ENOTSUP)]⟩

/-- The transport object; only the advertised port maxima matter here. -/
structure Transport where
  max_input_ports : Nat
  max_output_ports : Nat
  deriving Repr, DecidableEq

/-- The slice of `struct node_data` that `clean_transport` touches. -/
structure NodeData where
  trans : Option Transport
  rtwritefd : Int
  rtsocket_source : Bool
  mem_ids : List MemId
  in_ports : Option (List Port)
  out_ports : Option (List Port)
  deriving Repr, DecidableEq

/-- `pw_array_for_each(mid, &data->mem_ids) clear_memid(data, mid)`:
clear every entry in order, each call seeing the previous mutations. -/
def clear_all_memids (tbl : List MemId) : List MemId × List Int :=
  (List.range tbl.length).foldl
    (fun acc i =>
      let r := clear_memid acc.1 i
      (r.1, acc.2 ++ r.2))
    (tbl, [])

/-- Result of `clean_transport`: the new state and the closed fds. -/
structure CleanOut where
  data : NodeData
  closed : List Int
  deriving Repr, DecidableEq

/-- `clean_transport(proxy)`: a no-op when `trans == NULL`; otherwise
remove the rt socket source (`unhandle_socket`), detach the graph
ports (graph wiring is outside this model), clear every memory region
and reset the table, free both port arrays, destroy the transport,
close the write-fd, and null `trans`. -/
def clean_transport (d : NodeData) : CleanOut :=
  match d.trans with
  | none => ⟨d, []⟩
  | some _ =>
    let r := clear_all_memids d.mem_ids
    ⟨{ d with trans := none, rtsocket_source := false, mem_ids := [],
              in_ports := none, out_ports := none },
      r.2 ++ [d.rtwritefd]⟩

/-- `enum pw_remote_state`. -/
inductive RemoteState where
  | stError
  | unconnected
  | connecting
  | connected
  deriving Repr, DecidableEq

/-- The slice of `struct pw_remote` that `pw_remote_update_state`
touches: the current state and the owned error text. -/
structure RemoteCon where
  state : RemoteState
  error : Option String
  deriving Repr, DecidableEq

/-- One fired `state_changed` notification. -/
structure StateEvent where
  old : RemoteState
  next : RemoteState
  error : Option String
  deriving Repr, DecidableEq

/-- `pw_remote_update_state(remote, state, fmt, ...)`: when the state
actually changes, free the old error text, store the newly formatted
one (or NULL when `fmt == NULL`; `vasprintf` is modelled as
succeeding), install the new state and fire exactly one notification
carrying `(old, state, error)`; otherwise do nothing. -/
def pw_remote_update_state (r : RemoteCon) (s : RemoteState)
    (fmt : Option String) : RemoteCon × List StateEvent :=
  if r.state = s then (r, [])
  else ({ state := s, error := fmt }, [{ old := r.state, next := s, error := fmt }])

/-- The peer endpoint of a linked graph port. -/
structure PeerPort where
  node : Nat
  port_id : Nat
  deriving Repr, DecidableEq

/-- A graph port on the input side of the out-bound shim node
(`data->out_node.ports[SPA_DIRECTION_INPUT]`), with its optional peer. -/
structure GraphPort where
  port_id : Nat
  peer : Option PeerPort
  deriving Repr, DecidableEq

/-- The PORT_REUSE_BUFFER scan: skip ports whose id differs or whose
peer is NULL, call `spa_node_port_reuse_buffer(peer->node, peer->port_id,
buffer_id)` on the first match and break.  Each produced triple is
`(peer node, peer port id, buffer id)`. -/
def reuse_dispatch : List GraphPort → Nat → Nat → List (Nat × Nat × Nat)
  | [], _, _ => []
  | p :: rest, pid, bid =>
    if p.port_id = pid then
      match p.peer with
      | none => reuse_dispatch rest pid bid
      | some pp => [(pp.node, pp.port_id, bid)]
    else reuse_dispatch rest pid bid

/-- A message found in the transport ring by the rt pump. -/
inductive RtMsg where
  | processInput
  | processOutput
  | portReuseBuffer (port_id buffer_id : Nat)
  | unknownMsg (t : Nat)
  deriving Repr, DecidableEq

/-- A graph signal emitted by `handle_rtnode_message`. -/
inductive GraphSignal where
  | haveOutputOnInNode
  | needInputOnOutNode
  deriving Repr, DecidableEq

/-- Observable effects of dispatching rt messages. -/
structure RtEffects where
  signals : List GraphSignal
  reuseCalls : List (Nat × Nat × Nat)
  dones : List (Nat × Int)
  deriving Repr, DecidableEq

/-- `handle_rtnode_message`: PROCESS_INPUT / PROCESS_OUTPUT poke the
graph shims, PORT_REUSE_BUFFER runs the peer scan, unknown types are
only warned about; no branch ever emits a `done` reply. -/
def handle_rtnode_message (ports : List GraphPort) : RtMsg → RtEffects
  | RtMsg.processInput => ⟨[GraphSignal.haveOutputOnInNode], [], []⟩
  | RtMsg.processOutput => ⟨[GraphSignal.needInputOnOutNode], [], []⟩
  | RtMsg.portReuseBuffer pid bid => ⟨[], reuse_dispatch ports pid bid, []⟩
  | RtMsg.unknownMsg _ => ⟨[], [], []⟩

/-- Concatenation of rt effects, for draining the ring in order. -/
def RtEffects.append (a b : RtEffects) : RtEffects :=
  ⟨a.signals ++ b.signals, a.reuseCalls ++ b.reuseCalls, a.dones ++ b.dones⟩

/-- Observable outcome of one `on_rtsocket_condition` wakeup. -/
structure RtWakeOut where
  removedSource : Bool
  readCounter : Bool
  effects : RtEffects
  deriving Repr, DecidableEq

/-- `on_rtsocket_condition(user_data, fd, mask)`: an ERR or HUP bit
schedules removal of the socket source (`unhandle_socket`) and returns
at once — the 8-byte counter is not read and no ring message is
drained, even if IN is also set.  Only a pure IN wakeup reads the
counter and dispatches every pending ring message in order. -/
def on_rtsocket_condition (ports : List GraphPort) (mask : IoMask)
    (pending : List RtMsg) : RtWakeOut :=
  if mask.io_err || mask.io_hup then
    ⟨true, false, ⟨[], [], []⟩⟩
  else if mask.io_in then
    ⟨false, true,
      pending.foldl (fun acc m => acc.append (handle_rtnode_message ports m))
        ⟨[], [], []⟩⟩
  else ⟨false, false, ⟨[], [], []⟩⟩

/-- `enum spa_direction`. -/
inductive Direction where
  | dirInput
  | dirOutput
  deriving Repr, DecidableEq

/-- The transport header area with the advertised port maxima. -/
structure TransArea where
  max_input_ports : Nat
  max_output_ports : Nat
  deriving Repr, DecidableEq

/-- `find_port(data, direction, port_id)`: reject only ids strictly
greater than the advertised maximum, otherwise yield the index into
the corresponding port array (`&data->in_ports[port_id]` /
`&data->out_ports[port_id]`). -/
def find_port (area : TransArea) (dir : Direction) (port_id : Nat) : Option Nat :=
  match dir with
  | Direction.dirInput =>
      if port_id > area.max_input_ports then none else some port_id
  | Direction.dirOutput =>
      if port_id > area.max_output_ports then none else some port_id

/-- The port array allocated by `client_node_transport`:
`calloc(max, sizeof(struct port))`, each slot then `port_init`ed, so it
has exactly `max` elements. -/
def alloc_ports (max : Nat) : List Port := List.replicate max port_init

/-! Concrete fixtures used by counterexamples and witnesses.  `memTbl7`
is the table after `add_mem(id=7, fd=5, flags=0)`; the three buffers
are the spec's scenario-1 buffer, the same buffer with the unregistered
memory id 9, and the same buffer with the embedded id 1. -/

/-- Memory table holding only region 7 with fd 5. -/
def memTbl7 : List MemId := client_node_add_mem [] 7 5 0

/-- Scenario-1 buffer: `mem_id 7`, one `MemPtr` data at offset 64. -/
def bufMemPtr : ClientNodeBuffer :=
  { mem_id := 7, offset := 0, size := 4096,
    buffer := { id := 0, metas := [],
                datas := [{ kind := DataKind.memPtr, data := 64, fd := -1, chunk := none }] } }

/-- Scenario-2 buffer: identical but referencing the unregistered id 9. -/
def bufUnknownMem : ClientNodeBuffer :=
  { bufMemPtr with mem_id := 9 }

/-- Scenario-1 buffer with the embedded buffer id 1 instead of 0. -/
def bufMismatch : ClientNodeBuffer :=
  { bufMemPtr with buffer := { bufMemPtr.buffer with id := 1 } }

/-! # Theorems -/

/-- Helper: `clear_buffers` always leaves an empty buffer table. -/
theorem clear_buffers_empties (tbl : List MemId) (port : Port) :
    (clear_buffers tbl port).2.1.buffer_ids = [] := rfl

/-- Helper: `clear_buffers` does not touch the `in_order` flag. -/
theorem clear_buffers_in_order (tbl : List MemId) (port : Port) :
    (clear_buffers tbl port).2.1.in_order = port.in_order := rfl

/-- Claim C4: processing a Start command sets the RT interest mask to
{IN, ERR, HUP}, forwards exactly the command to the local node, sets
every input IO slot status to NEED_BUFFER while leaving the output
slots alone, appends exactly one NEED_INPUT ring message (with one
counter write), and replies `done(seq, res)` with the local node's
result. -/
theorem command_start_spec (st : CmdState) (seq : Nat) (sendRes : Int) :
    (client_node_command st seq NodeCmd.start sendRes).state.ioMask = maskInErrHup
  ∧ (client_node_command st seq NodeCmd.start sendRes).forwarded = [NodeCmd.start]
  ∧ (client_node_command st seq NodeCmd.start sendRes).state.inputs
      = List.replicate st.inputs.length IoStatus.needBuffer
  ∧ (client_node_command st seq NodeCmd.start sendRes).state.outputs = st.outputs
  ∧ (client_node_command st seq NodeCmd.start sendRes).state.messages
      = st.messages ++ [RingMsg.needInput]
  ∧ (client_node_command st seq NodeCmd.start sendRes).state.writes = st.writes ++ [1]
  ∧ (client_node_command st seq NodeCmd.start sendRes).dones = [(seq, sendRes)] := by
  refine ⟨rfl, rfl, ?_, rfl, rfl, rfl, rfl⟩
  simp [client_node_command, node_need_input, List.map_const']

/-- Claim C8: a node command that is neither Pause, Start nor
ClockUpdate is answered with `done(seq, -ENOTSUP)` and nothing else
changes; a ClockUpdate command is accepted as a complete no-op: no
state change, no forward, and no reply of any kind. -/
theorem command_unsupported_and_clock_spec (st : CmdState) (seq : Nat)
    (sendRes : Int) (t : Nat) :
    client_node_command st seq (NodeCmd.otherCmd t) sendRes
      = ⟨st, [], [(seq, -ENOTSUP)]⟩
  ∧ client_node_command st seq NodeCmd.clockUpdate sendRes = ⟨st, [], []⟩ :=
  ⟨rfl, rfl⟩

/-- Claim C9: with `max_input_ports = 1` the port array allocated at
transport attach has exactly one element, yet `find_port` resolves the
lookup `port_id = 1` (equal to the advertised maximum) to index 1 —
one past the end of the array.  This is the failing input showing the
`port_id > max` bounds check is off by one. -/
theorem find_port_off_by_one :
    find_port ⟨1, 1⟩ Direction.dirInput 1 = some 1
  ∧ (alloc_ports 1).length = 1
  ∧ (alloc_ports 1)[1]? = none := by
  refine ⟨rfl, rfl, rfl⟩

/-- Claim C10: whenever the RT wake-fd callback sees ERR or HUP in the
poll mask it only schedules removal of the socket source: the 8-byte
counter is not read and no pending ring message is dispatched, even if
IN is set in the same wakeup. -/
theorem rtsocket_err_hup_no_dispatch (ports : List GraphPort) (mask : IoMask)
    (pending : List RtMsg) (h : mask.io_err = true ∨ mask.io_hup = true) :
    on_rtsocket_condition ports mask pending
      = ⟨true, false, ⟨[], [], []⟩⟩ := by
  unfold on_rtsocket_condition
  rcases h with h | h <;> simp [h]

/-- Witness for C10 at a wakeup carrying both IN and ERR with a
nonempty ring: still no read and no dispatch. -/
theorem rtsocket_err_hup_no_dispatch_witness :
    ((⟨true, true, false⟩ : IoMask).io_err = true ∨
       (⟨true, true, false⟩ : IoMask).io_hup = true)
  ∧ on_rtsocket_condition [] ⟨true, true, false⟩ [RtMsg.processInput]
      = ⟨true, false, ⟨[], [], []⟩⟩ :=
  ⟨Or.inl rfl,
   rtsocket_err_hup_no_dispatch [] ⟨true, true, false⟩ [RtMsg.processInput] (Or.inl rfl)⟩

/-- Claim C6: a state-changed notification fires exactly when the new
state differs, every fired notification carries `old ≠ new` together
with the freshly formatted error text, and the stored error text is
replaced exactly on such transitions. -/
theorem update_state_spec (r : RemoteCon) (s : RemoteState) (fmt : Option String) :
    ((pw_remote_update_state r s fmt).2 ≠ [] ↔ r.state ≠ s)
  ∧ (∀ e ∈ (pw_remote_update_state r s fmt).2,
       e.old ≠ e.next ∧ e.old = r.state ∧ e.next = s ∧ e.error = fmt)
  ∧ (pw_remote_update_state r s fmt).1.error
      = (if r.state = s then r.error else fmt)
  ∧ (pw_remote_update_state r s fmt).1.state
      = (if r.state = s then r.state else s) := by
  unfold pw_remote_update_state
  by_cases h : r.state = s <;> simp [h]

/-- Witness for C6: the UNCONNECTED → CONNECTING transition fires one
notification with distinct states carrying the new error text. -/
theorem update_state_spec_witness :
    (pw_remote_update_state ⟨RemoteState.unconnected, none⟩ RemoteState.connecting
        (some "e")).2
      = [⟨RemoteState.unconnected, RemoteState.connecting, some "e"⟩]
  ∧ (∀ e ∈ (pw_remote_update_state ⟨RemoteState.unconnected, none⟩
              RemoteState.connecting (some "e")).2,
       e.old ≠ e.next ∧ e.old = RemoteState.unconnected
         ∧ e.next = RemoteState.connecting ∧ e.error = some "e") :=
  ⟨by decide,
   (update_state_spec ⟨RemoteState.unconnected, none⟩ RemoteState.connecting
      (some "e")).2.1⟩

/-- Helper: the PORT_REUSE_BUFFER scan produces exactly one call when
some port with the addressed id has a linked peer, and none otherwise. -/
theorem reuse_dispatch_length (ports : List GraphPort) (pid bid : Nat) :
    (reuse_dispatch ports pid bid).length
      = if ports.any (fun p => decide (p.port_id = pid) && p.peer.isSome)
        then 1 else 0 := by
  induction ports with
  | nil => rfl
  | cons p rest ih =>
    by_cases h : p.port_id = pid
    · cases hp : p.peer <;> simp [reuse_dispatch, h, hp, List.any_cons, ih]
    · simp [reuse_dispatch, h, List.any_cons, ih]

/-- Helper: every call produced by the scan targets the peer of a port
that carries the addressed id, and passes the peer's port id together
with the message's buffer id. -/
theorem reuse_dispatch_sound (ports : List GraphPort) (pid bid : Nat) :
    ∀ c ∈ reuse_dispatch ports pid bid,
      ∃ p ∈ ports, p.port_id = pid
        ∧ ∃ pp, p.peer = some pp ∧ c = (pp.node, pp.port_id, bid) := by
  induction ports with
  | nil => intro c hc; simp [reuse_dispatch] at hc
  | cons p rest ih =>
    intro c hc
    by_cases h : p.port_id = pid
    · cases hp : p.peer with
      | none =>
        simp only [reuse_dispatch, if_pos h, hp] at hc
        obtain ⟨q, hq, hrest⟩ := ih c hc
        exact ⟨q, List.mem_cons_of_mem _ hq, hrest⟩
      | some pp =>
        simp only [reuse_dispatch, if_pos h, hp, List.mem_singleton] at hc
        exact ⟨p, List.mem_cons_self _ _, h, pp, hp, hc⟩
    · simp only [reuse_dispatch, if_neg h] at hc
      obtain ⟨q, hq, hrest⟩ := ih c hc
      exact ⟨q, List.mem_cons_of_mem _ hq, hrest⟩

/-- Claim C7: dispatching PORT_REUSE_BUFFER{port, buffer} never emits a
`done` reply, makes exactly one reuse-buffer call when some out-bound
graph port with that id has a linked peer and none otherwise, and each
such call goes to the peer with `(peer-port-id, buffer)`. -/
theorem reuse_buffer_dispatch_spec (ports : List GraphPort) (pid bid : Nat) :
    (handle_rtnode_message ports (RtMsg.portReuseBuffer pid bid)).dones = []
  ∧ (handle_rtnode_message ports (RtMsg.portReuseBuffer pid bid)).reuseCalls.length
      = (if ports.any (fun p => decide (p.port_id = pid) && p.peer.isSome)
         then 1 else 0)
  ∧ (∀ c ∈ (handle_rtnode_message ports (RtMsg.portReuseBuffer pid bid)).reuseCalls,
       ∃ p ∈ ports, p.port_id = pid
         ∧ ∃ pp, p.peer = some pp ∧ c = (pp.node, pp.port_id, bid)) :=
  ⟨rfl, reuse_dispatch_length ports pid bid, reuse_dispatch_sound ports pid bid⟩

/-- Witness for C7: with a peered port 0 the message {port=0, buffer=2}
yields the single call (peer-node 3, peer-port 5, buffer 2) and no
`done`; with only an unpeered port the call list is empty. -/
theorem reuse_buffer_dispatch_spec_witness :
    (handle_rtnode_message [⟨0, some ⟨3, 5⟩⟩, ⟨1, none⟩]
        (RtMsg.portReuseBuffer 0 2)).reuseCalls = [(3, 5, 2)]
  ∧ (handle_rtnode_message [⟨0, some ⟨3, 5⟩⟩, ⟨1, none⟩]
        (RtMsg.portReuseBuffer 0 2)).dones = []
  ∧ (handle_rtnode_message [⟨1, none⟩] (RtMsg.portReuseBuffer 1 2)).reuseCalls = [] :=
  ⟨by decide,
   (reuse_buffer_dispatch_spec [⟨0, some ⟨3, 5⟩⟩, ⟨1, none⟩] 0 2).1,
   by decide⟩

/-- Claim C5: tearing down a live transport nulls `trans`, removes the
rt socket source, clears and empties the memory table, frees both port
arrays and closes the write-fd; and a second call on the resulting
state performs no action at all. -/
theorem clean_transport_idempotent (d : NodeData) (t : Transport)
    (h : d.trans = some t) :
    (clean_transport d).data.trans = none
  ∧ (clean_transport d).data.rtsocket_source = false
  ∧ (clean_transport d).data.mem_ids = []
  ∧ (clean_transport d).data.in_ports = none
  ∧ (clean_transport d).data.out_ports = none
  ∧ d.rtwritefd ∈ (clean_transport d).closed
  ∧ clean_transport (clean_transport d).data = ⟨(clean_transport d).data, []⟩ := by
  have hd : clean_transport d
      = CleanOut.mk
          { d with trans := none, rtsocket_source := false, mem_ids := [],
                   in_ports := none, out_ports := none }
          ((clear_all_memids d.mem_ids).2 ++ [d.rtwritefd]) := by
    unfold clean_transport
    rw [h]
  rw [hd]
  refine ⟨rfl, rfl, rfl, rfl, rfl, ?_, rfl⟩
  exact List.mem_append_right _ (List.mem_singleton_self _)

/-- Witness for C5 on a concrete live session: one full teardown, then
the second call is a no-op. -/
theorem clean_transport_idempotent_witness :
    (NodeData.mk (some ⟨2, 1⟩) 9 true [⟨5, 10, 0, 0, none⟩]
        (some (alloc_ports 2)) (some (alloc_ports 1))).trans = some ⟨2, 1⟩
  ∧ (clean_transport ⟨some ⟨2, 1⟩, 9, true, [⟨5, 10, 0, 0, none⟩],
        some (alloc_ports 2), some (alloc_ports 1)⟩).data.trans = none
  ∧ (9 : Int) ∈ (clean_transport ⟨some ⟨2, 1⟩, 9, true, [⟨5, 10, 0, 0, none⟩],
        some (alloc_ports 2), some (alloc_ports 1)⟩).closed
  ∧ clean_transport (clean_transport ⟨some ⟨2, 1⟩, 9, true, [⟨5, 10, 0, 0, none⟩],
        some (alloc_ports 2), some (alloc_ports 1)⟩).data
      = ⟨(clean_transport ⟨some ⟨2, 1⟩, 9, true, [⟨5, 10, 0, 0, none⟩],
            some (alloc_ports 2), some (alloc_ports 1)⟩).data, []⟩ :=
  ⟨rfl,
   (clean_transport_idempotent _ ⟨2, 1⟩ rfl).1,
   (clean_transport_idempotent _ ⟨2, 1⟩ rfl).2.2.2.2.2.1,
   (clean_transport_idempotent _ ⟨2, 1⟩ rfl).2.2.2.2.2.2⟩

/-- Counterexample to claim C3: on a region that is mapped while a
sibling region still references the same fd, `clear_memid` leaves the
mapping in place (only the id and fd slot are invalidated), so "clear
unmaps the region's mapping" is false; a cleared entry survives with
`fd = -1` and a live mapping. -/
theorem clear_memid_shared_fd_keeps_mapping :
    clear_memid [⟨5, 10, 0, 0, some 77⟩, ⟨6, 10, 0, 0, none⟩] 0
      = ([⟨SPA_ID_INVALID, -1, 0, 0, some 77⟩, ⟨6, 10, 0, 0, none⟩], [])
  ∧ ¬ (∀ m ∈ (clear_memid [⟨5, 10, 0, 0, some 77⟩, ⟨6, 10, 0, 0, none⟩] 0).1,
        m.fd = -1 → m.ptr = none) := by
  constructor
  · decide
  · decide

/-- Claim C3 (amended): `clear_memid` always invalidates the entry's id
and fd slot; it unmaps the mapping and closes the fd exactly when no
other entry of the table still references the same fd — when a sibling
shares the fd, the fd stays open and the mapping, if any, is left in
place. -/
theorem clear_memid_spec (tbl : List MemId) (i : Nat) (mid : MemId)
    (hget : tbl[i]? = some mid) (hfd : mid.fd ≠ -1) :
    ((∃ j m, j ≠ i ∧ tbl[j]? = some m ∧ m.fd = mid.fd) →
        clear_memid tbl i
          = (tbl.set i { mid with fd := -1, id := SPA_ID_INVALID }, []))
  ∧ ((¬ ∃ j m, j ≠ i ∧ tbl[j]? = some m ∧ m.fd = mid.fd) →
        clear_memid tbl i
          = (tbl.set i { mid with fd := -1, id := SPA_ID_INVALID, ptr := none },
             [mid.fd])) := by
  have hscan : ((tbl.set i { mid with fd := -1, id := SPA_ID_INVALID }).any
        (fun m => decide (m.fd = mid.fd)) = true)
      ↔ (∃ j m, j ≠ i ∧ tbl[j]? = some m ∧ m.fd = mid.fd) := by
    rw [List.any_eq_true]
    constructor
    · rintro ⟨x, hx, hxfd⟩
      rw [List.mem_iff_getElem?] at hx
      obtain ⟨j, hj⟩ := hx
      rw [decide_eq_true_eq] at hxfd
      by_cases hji : j = i
      · subst hji
        rw [List.getElem?_set] at hj
        simp only [if_pos rfl] at hj
        have hlen : j < tbl.length := by
          by_contra hlen
          rw [if_neg hlen] at hj
          exact Option.noConfusion hj
        rw [if_pos hlen] at hj
        have hx : x = { mid with fd := -1, id := SPA_ID_INVALID } :=
          (Option.some.injEq _ _).mp hj.symm
        rw [hx] at hxfd
        exact absurd hxfd.symm hfd
      · rw [List.getElem?_set_ne (fun he => hji he.symm)] at hj
        exact ⟨j, x, hji, hj, hxfd⟩
    · rintro ⟨j, m, hji, hj, hmfd⟩
      refine ⟨m, ?_, by rw [decide_eq_true_eq]; exact hmfd⟩
      rw [List.mem_iff_getElem?]
      exact ⟨j, by rw [List.getElem?_set_ne (fun he => hji he.symm)]; exact hj⟩
  have heq : clear_memid tbl i
      = (if (tbl.set i { mid with fd := -1, id := SPA_ID_INVALID }).any
            (fun m => decide (m.fd = mid.fd))
         then (tbl.set i { mid with fd := -1, id := SPA_ID_INVALID }, [])
         else (tbl.set i { mid with fd := -1, id := SPA_ID_INVALID, ptr := none },
               [mid.fd])) := by
    simp only [clear_memid, hget, hfd, if_false, mem_unmap, List.set_set]
  constructor
  · intro hsib
    rw [heq, if_pos (hscan.mpr hsib)]
  · intro hnosib
    rw [heq, if_neg (fun hb => hnosib (hscan.mp hb))]

/-- Witness for C3 (amended) on the spec's scenario 6:
`add_mem(5, F1); add_mem(6, F1); clear(5)` with `F1 = 10` leaves F1
open (nothing closed), region 5's id invalidated and its fd slot -1. -/
theorem clear_memid_spec_witness :
    (client_node_add_mem (client_node_add_mem [] 5 10 0) 6 10 0)[0]?
        = some ⟨5, 10, 0, 0, none⟩
  ∧ clear_memid (client_node_add_mem (client_node_add_mem [] 5 10 0) 6 10 0) 0
      = ([⟨SPA_ID_INVALID, -1, 0, 0, none⟩, ⟨6, 10, 0, 0, none⟩], []) := by
  refine ⟨by decide, ?_⟩
  have h := (clear_memid_spec
      (client_node_add_mem (client_node_add_mem [] 5 10 0) 6 10 0) 0
      ⟨5, 10, 0, 0, none⟩ (by decide) (by decide)).1
      ⟨1, ⟨6, 10, 0, 0, none⟩, by decide, by decide, by decide⟩
  rw [h]
  decide

/-- Helper: replacing a table entry by one with the same id does not
change any `find_mem` lookup. -/
theorem find_mem_set_preserve (tbl : List MemId) (i : Nat) (a m : MemId)
    (hget : tbl[i]? = some m) (hid : a.id = m.id) (x : Nat) :
    find_mem (tbl.set i a) x = find_mem tbl x := by
  induction tbl generalizing i with
  | nil => simp at hget
  | cons hd rest ih =>
    cases i with
    | zero =>
      have hm : hd = m := by simpa using hget
      subst hm
      show find_mem (a :: rest) x = find_mem (hd :: rest) x
      simp [find_mem, hid]
    | succ n =>
      have hget2 : rest[n]? = some m := by simpa using hget
      show find_mem (hd :: rest.set n a) x = find_mem (hd :: rest) x
      simp [find_mem, ih n hget2]

/-- Helper: bumping a refcount does not change any `find_mem` lookup. -/
theorem find_mem_mem_ref_inc (tbl : List MemId) (i x : Nat) :
    find_mem (mem_ref_inc tbl i) x = find_mem tbl x := by
  cases hget : tbl[i]? with
  | none => simp [mem_ref_inc, hget]
  | some m =>
    simp only [mem_ref_inc, hget]
    exact find_mem_set_preserve tbl i { m with ref := m.ref + 1 } m hget rfl x

/-- Helper: the data-resolution loop only bumps refcounts, so it does
not change any `find_mem` lookup. -/
theorem find_mem_resolve_datas (ds : List SpaData) (tbl : List MemId)
    (pins : List Nat) (a b j x : Nat) :
    find_mem (resolve_datas tbl pins a b j ds).tbl x = find_mem tbl x := by
  induction ds generalizing tbl pins j with
  | nil => rfl
  | cons d rest ih =>
    cases hk : d.kind with
    | memFd =>
      cases hm : find_mem tbl d.data with
      | none => simp [resolve_datas, hk, hm]
      | some bm =>
        simp only [resolve_datas, hk, hm]
        rw [ih, find_mem_mem_ref_inc]
    | dmaBuf =>
      cases hm : find_mem tbl d.data with
      | none => simp [resolve_datas, hk, hm]
      | some bm =>
        simp only [resolve_datas, hk, hm]
        rw [ih, find_mem_mem_ref_inc]
    | memPtr =>
      simp only [resolve_datas, hk]
      rw [ih]
    | otherKind t =>
      simp only [resolve_datas, hk]
      rw [ih]

/-- Helper: processing one buffer only bumps refcounts in the memory
table, so it does not change any `find_mem` lookup. -/
theorem find_mem_process_buffer (tbl : List MemId) (port : Port)
    (cb : ClientNodeBuffer) (x : Nat) :
    find_mem (process_buffer tbl port cb).tbl x = find_mem tbl x := by
  cases hm : find_mem tbl cb.mem_id with
  | none => simp [process_buffer, hm]
  | some mi =>
    simp only [process_buffer, hm]
    rw [find_mem_resolve_datas, find_mem_mem_ref_inc]

/-- Helper: a fully successful buffer loop found every buffer's memory
id in the table it started from. -/
theorem use_buffers_loop_ok_find (bufs : List ClientNodeBuffer) :
    ∀ tbl port, (use_buffers_loop tbl port bufs).ok = true →
      ∀ cb ∈ bufs, find_mem tbl cb.mem_id ≠ none := by
  induction bufs with
  | nil => intro tbl port _ cb hcb; simp at hcb
  | cons c rest ih =>
    intro tbl port hok cb hcb
    simp only [use_buffers_loop] at hok
    by_cases hr : (process_buffer tbl port c).ok = true
    · rw [if_pos hr] at hok
      rcases List.mem_cons.mp hcb with rfl | hmem
      · intro hnone
        have hfalse : (process_buffer tbl port cb).ok = false := by
          simp [process_buffer, hnone]
        rw [hfalse] at hr
        exact Bool.noConfusion hr
      · have h2 := ih (process_buffer tbl port c).tbl
          (process_buffer tbl port c).port hok cb hmem
        rwa [find_mem_process_buffer] at h2
    · rw [if_neg hr] at hok
      exact absurd hok hr

/-- Helper: a successful `process_buffer` appends exactly one entry,
carrying the incoming buffer's embedded id, and leaves `in_order`
untouched. -/
theorem process_buffer_ids (tbl : List MemId) (port : Port)
    (cb : ClientNodeBuffer) (hok : (process_buffer tbl port cb).ok = true) :
    (process_buffer tbl port cb).port.buffer_ids.map (·.id)
      = port.buffer_ids.map (·.id) ++ [cb.buffer.id]
  ∧ (process_buffer tbl port cb).port.in_order = port.in_order := by
  cases hm : find_mem tbl cb.mem_id with
  | none =>
    have hfalse : (process_buffer tbl port cb).ok = false := by
      simp [process_buffer, hm]
    rw [hfalse] at hok
    exact Bool.noConfusion hok
  | some mi =>
    constructor
    · simp [process_buffer, hm]
    · simp [process_buffer, hm]

/-- Helper: a fully successful buffer loop appends the incoming
buffers' embedded ids in order and leaves `in_order` untouched. -/
theorem use_buffers_loop_ids (bufs : List ClientNodeBuffer) :
    ∀ tbl port, (use_buffers_loop tbl port bufs).ok = true →
      (use_buffers_loop tbl port bufs).port.buffer_ids.map (·.id)
          = port.buffer_ids.map (·.id) ++ bufs.map (·.buffer.id)
      ∧ (use_buffers_loop tbl port bufs).port.in_order = port.in_order := by
  induction bufs with
  | nil => intro tbl port _; simp [use_buffers_loop]
  | cons c rest ih =>
    intro tbl port hok
    simp only [use_buffers_loop] at hok ⊢
    by_cases hr : (process_buffer tbl port c).ok = true
    · rw [if_pos hr] at hok ⊢
      obtain ⟨h1, h2⟩ := ih _ _ hok
      obtain ⟨p1, p2⟩ := process_buffer_ids tbl port c hr
      constructor
      · rw [h1, p1]
        simp
      · rw [h2, p2]
    · rw [if_neg hr] at hok
      exact absurd hok hr

/-- Counterexample to claim C1: with only region 7 registered, a
`port_use_buffers(seq=11, ...)` whose buffer references the
unregistered memory id 9 replies `done(11, -EINVAL)` — INVALID-ARG,
not the claimed NOT-FOUND — while the rollback does hold. -/
theorem use_buffers_unknown_mem_not_enoent :
    (client_node_port_use_buffers memTbl7 port_init 11 [bufUnknownMem]).done
        = (11, -EINVAL)
  ∧ (client_node_port_use_buffers memTbl7 port_init 11 [bufUnknownMem]).done
        ≠ (11, -ENOENT)
  ∧ (client_node_port_use_buffers memTbl7 port_init 11 [bufUnknownMem]).port.buffer_ids
        = [] := by
  refine ⟨by decide, by decide, by decide⟩

/-- Claim C1 (amended): when any incoming buffer references a memory id
absent from the table, `port_use_buffers` replies
`done(seq, -EINVAL)` (the spec's INVALID-ARG, not NOT-FOUND) and the
clear step rolls back every entry added before the failure: no buffer
entry remains on the port. -/
theorem use_buffers_unknown_mem_rollback (tbl : List MemId) (port : Port)
    (seq : Nat) (bufs : List ClientNodeBuffer)
    (hport : port.buffer_ids = [])
    (hmiss : ∃ cb ∈ bufs, find_mem tbl cb.mem_id = none) :
    (client_node_port_use_buffers tbl port seq bufs).done = (seq, -EINVAL)
  ∧ (client_node_port_use_buffers tbl port seq bufs).port.buffer_ids = [] := by
  obtain ⟨cb, hcb, hnone⟩ := hmiss
  have hc1 : clear_buffers tbl port = (tbl, port, []) := by
    obtain ⟨bids, ino⟩ := port
    simp only at hport
    subst hport
    rfl
  have hok : ¬ (use_buffers_loop tbl port bufs).ok = true := by
    intro h
    exact use_buffers_loop_ok_find bufs tbl port h cb hcb hnone
  simp only [client_node_port_use_buffers, hc1]
  rw [if_neg hok]
  exact ⟨rfl, rfl⟩

/-- Witness for C1 (amended) at the spec's scenario 2. -/
theorem use_buffers_unknown_mem_rollback_witness :
    port_init.buffer_ids = []
  ∧ (∃ cb ∈ [bufUnknownMem], find_mem memTbl7 cb.mem_id = none)
  ∧ (client_node_port_use_buffers memTbl7 port_init 11 [bufUnknownMem]).done
        = (11, -EINVAL)
  ∧ (client_node_port_use_buffers memTbl7 port_init 11 [bufUnknownMem]).port.buffer_ids
        = [] := by
  refine ⟨rfl, ⟨bufUnknownMem, by decide, by decide⟩, ?_, ?_⟩
  · exact (use_buffers_unknown_mem_rollback memTbl7 port_init 11 [bufUnknownMem] rfl
      ⟨bufUnknownMem, by decide, by decide⟩).1
  · exact (use_buffers_unknown_mem_rollback memTbl7 port_init 11 [bufUnknownMem] rfl
      ⟨bufUnknownMem, by decide, by decide⟩).2

/-- Counterexample to claim C2: a successful `port_use_buffers` whose
single buffer carries the embedded id 1 at position 0 is accepted, yet
`in_order` stays true — the claimed equivalence between `in_order` and
"every entry's id equals its position" is false (the source never
updates the flag). -/
theorem use_buffers_in_order_stale :
    (client_node_port_use_buffers memTbl7 port_init 11 [bufMismatch]).done = (11, 0)
  ∧ (client_node_port_use_buffers memTbl7 port_init 11 [bufMismatch]).port.in_order
        = true
  ∧ (client_node_port_use_buffers memTbl7 port_init 11
        [bufMismatch]).port.buffer_ids.map (·.id) = [1]
  ∧ ¬ ((client_node_port_use_buffers memTbl7 port_init 11
          [bufMismatch]).port.in_order = true
        ↔ (client_node_port_use_buffers memTbl7 port_init 11
            [bufMismatch]).port.buffer_ids.map (·.id)
          = List.range (client_node_port_use_buffers memTbl7 port_init 11
              [bufMismatch]).port.buffer_ids.length) := by
  refine ⟨by decide, by decide, by decide, by decide⟩

/-- Claim C2 (amended): a successful `port_use_buffers` with `k`
incoming buffers leaves exactly `k` entries at contiguous positions
0..k-1, entry `i` carrying buffer `i`'s embedded id; an embedded id
differing from its position is still accepted (only logged), and the
`in_order` flag is left unchanged by the handler. -/
theorem use_buffers_success_table (tbl : List MemId) (port : Port)
    (seq : Nat) (bufs : List ClientNodeBuffer)
    (hres : (client_node_port_use_buffers tbl port seq bufs).done.2 = 0) :
    (client_node_port_use_buffers tbl port seq bufs).port.buffer_ids.map (·.id)
        = bufs.map (·.buffer.id)
  ∧ (client_node_port_use_buffers tbl port seq bufs).port.buffer_ids.length
        = bufs.length
  ∧ (client_node_port_use_buffers tbl port seq bufs).port.in_order
        = port.in_order := by
  by_cases hok : (use_buffers_loop (clear_buffers tbl port).1
      (clear_buffers tbl port).2.1 bufs).ok = true
  · obtain ⟨h1, h2⟩ := use_buffers_loop_ids bufs _ _ hok
    rw [clear_buffers_empties] at h1
    rw [clear_buffers_in_order] at h2
    simp only [List.map_nil, List.nil_append] at h1
    have hcall : client_node_port_use_buffers tbl port seq bufs
        = ⟨(use_buffers_loop (clear_buffers tbl port).1
              (clear_buffers tbl port).2.1 bufs).tbl,
           (use_buffers_loop (clear_buffers tbl port).1
              (clear_buffers tbl port).2.1 bufs).port,
           (clear_buffers tbl port).2.2, (seq, 0)⟩ := by
      simp only [client_node_port_use_buffers]
      rw [if_pos hok]
    rw [hcall]
    refine ⟨h1, ?_, h2⟩
    have hlen := congrArg List.length h1
    rwa [List.length_map, List.length_map] at hlen
  · have hcall : (client_node_port_use_buffers tbl port seq bufs).done
        = (seq, -EINVAL) := by
      simp only [client_node_port_use_buffers]
      rw [if_neg hok]
    rw [hcall] at hres
    have hne : ¬ (-EINVAL : Int) = 0 := by decide
    exact absurd hres hne

/-- Witness for C2 (amended) at the spec's scenario 1, whose single
buffer carries the in-order embedded id 0. -/
theorem use_buffers_success_table_witness :
    (client_node_port_use_buffers memTbl7 port_init 11 [bufMemPtr]).done.2 = 0
  ∧ (client_node_port_use_buffers memTbl7 port_init 11
        [bufMemPtr]).port.buffer_ids.map (·.id) = [0]
  ∧ (client_node_port_use_buffers memTbl7 port_init 11
        [bufMemPtr]).port.buffer_ids.length = 1
  ∧ (client_node_port_use_buffers memTbl7 port_init 11 [bufMemPtr]).port.in_order
        = port_init.in_order := by
  have h := use_buffers_success_table memTbl7 port_init 11 [bufMemPtr] (by decide)
  exact ⟨by decide, by simpa using h.1, by simpa using h.2.1, h.2.2⟩

end PwRemote
